import Mathlib

/-!
Verification of the Study Assistant backend (FastAPI + Mongo document store).

The scheduling core and the handlers of `src/main.py` are shallowly embedded:
Python floats are modelled as exact rationals (`ℚ`), Python ints as `ℤ`,
timestamps as integers counted in days (the only time arithmetic is
`timedelta(days=interval)`), Mongo ObjectIds as opaque naturals, and the
document store as explicit lists of (id, document) pairs.  Python's `round`
(round half to even, as applied by `int(round(...))`) is modelled by
`pyRound`.
-/

namespace StudyAssistant

/-- The scheduling state of a card read by `review_card` in `src/main.py`
(lines 129-131): `ease_factor` (float, modelled as `ℚ`), `repetitions` and
`interval` (ints). -/
structure CardState where
  ease_factor : ℚ
  repetitions : ℤ
  interval : ℤ
deriving DecidableEq, Repr

/-- `max(0, min(5, payload.quality))` from `src/main.py` line 128. -/
def clampQuality (q : ℤ) : ℤ := max 0 (min 5 q)

/-- Python's `round` on an exactly-represented value: round half to even,
as used in `int(round(interval * ease))` at `src/main.py` line 142. -/
def pyRound (x : ℚ) : ℤ :=
  if Int.fract x < 1/2 then ⌊x⌋
  else if 1/2 < Int.fract x then ⌊x⌋ + 1
  else if ⌊x⌋ % 2 = 0 then ⌊x⌋ else ⌊x⌋ + 1

/-- The pure scheduling computation of `review_card` (`src/main.py` lines
128-145).  On a lapse (`quality < 3` after clamping) repetitions and
interval are reset and `ease_factor` is left untouched; otherwise the
interval follows the 1 / 6 / round(interval*ease) ladder (with `or 1`
replacing a rounded 0), the ease factor is updated from the clamped
quality and floored at 1.3, and repetitions is incremented.  The interval
multiplication uses the ease factor read before the update, as in the
source. -/
def review_card (s : CardState) (q0 : ℤ) : CardState :=
  if clampQuality q0 < 3 then
    { ease_factor := s.ease_factor, repetitions := 0, interval := 1 }
  else
    { ease_factor :=
        max (13/10)
          (s.ease_factor +
            (1/10 - ((5 - clampQuality q0 : ℤ) : ℚ) *
              (8/100 + ((5 - clampQuality q0 : ℤ) : ℚ) * (2/100)))),
      repetitions := s.repetitions + 1,
      interval :=
        if s.repetitions = 0 then 1
        else if s.repetitions = 1 then 6
        else if pyRound ((s.interval : ℚ) * s.ease_factor) = 0 then 1
        else pyRound ((s.interval : ℚ) * s.ease_factor) }

/-- A full card document per the `Card` schema (`src/schemas.py` lines
15-24): `deck_id` (an ObjectId string, modelled as an opaque natural),
`front`, `back`, and the five scheduling fields. -/
structure CardDoc where
  deck_id : ℕ
  front : String
  back : String
  ease_factor : ℚ
  repetitions : ℤ
  interval : ℤ
  next_review : Option ℤ
  last_reviewed : Option ℤ
deriving DecidableEq, Repr

/-- The effect of the `/api/review` handler on the stored card document
(`src/main.py` lines 128-158): compute the new scheduling state and
`$set` exactly the five scheduling fields, with
`next_review = now + interval` days and `last_reviewed = now`. -/
def applyReview (doc : CardDoc) (q : ℤ) (now : ℤ) : CardDoc :=
  let s := review_card
    { ease_factor := doc.ease_factor, repetitions := doc.repetitions,
      interval := doc.interval } q
  { doc with
      ease_factor := s.ease_factor,
      repetitions := s.repetitions,
      interval := s.interval,
      last_reviewed := some now,
      next_review := some (now + s.interval) }

/-- The due test from `list_cards` (`src/main.py` lines 113-114):
a card is due when `next_review` is absent or `next_review <= now`. -/
def isDue (next_review : Option ℤ) (now : ℤ) : Bool :=
  match next_review with
  | none => true
  | some t => decide (t ≤ now)

/-- `list_cards` (`src/main.py` lines 102-118): optionally filter by
`deck_id` (the Mongo query), then, when `due_only` is set, keep only the
due cards. -/
def list_cards (items : List CardDoc) (deck_id : Option ℕ) (due_only : Bool)
    (now : ℤ) : List CardDoc :=
  let base := match deck_id with
    | none => items
    | some d => items.filter (fun c => c.deck_id == d)
  if due_only then base.filter (fun c => isDue c.next_review now) else base

/-- The `Deck` schema (`src/schemas.py` lines 11-13). -/
structure Deck where
  name : String
  description : Option String
deriving DecidableEq, Repr

/-- The document store as seen by the card endpoints: the `deck` and
`card` collections as lists of (ObjectId, document) pairs. -/
structure StoreState where
  decks : List (ℕ × Deck)
  cards : List (ℕ × CardDoc)
deriving DecidableEq, Repr

/-- `create_card` (`src/main.py` lines 93-99): if
`count_documents({_id: deck_id}) == 0` raise 404 ("Deck not found")
leaving the store untouched, otherwise insert the card with a fresh id. -/
def create_card (st : StoreState) (card : CardDoc) (newId : ℕ) :
    StoreState × Except (ℕ × String) ℕ :=
  if (st.decks.filter (fun p => p.1 == card.deck_id)).length = 0 then
    (st, Except.error (404, "Deck not found"))
  else
    ({ st with cards := st.cards ++ [(newId, card)] }, Except.ok newId)

/-- Clamping twice is the same as clamping once. -/
theorem clampQuality_idem (q : ℤ) : clampQuality (clampQuality q) = clampQuality q := by
  simp only [clampQuality]
  omega

/-- `pyRound` of a nonnegative rational is nonnegative. -/
theorem pyRound_nonneg (x : ℚ) (hx : 0 ≤ x) : 0 ≤ pyRound x := by
  have h0 : 0 ≤ ⌊x⌋ := Int.floor_nonneg.mpr hx
  unfold pyRound
  split_ifs <;> omega

/-- `pyRound` is the identity on integers. -/
theorem pyRound_intCast (n : ℤ) : pyRound ((n : ℤ) : ℚ) = n := by
  unfold pyRound
  rw [Int.fract_intCast, Int.floor_intCast]
  norm_num

/-- The rounding performed when compounding from interval 6 at ease 2.5. -/
theorem pyRound_six_times_ease : pyRound (((6 : ℤ) : ℚ) * (5/2 : ℚ)) = 15 := by
  rw [show (((6 : ℤ) : ℚ) * (5/2 : ℚ)) = ((15 : ℤ) : ℚ) by push_cast; norm_num]
  exact pyRound_intCast 15

/-- The floor of -25/2. -/
theorem floor_neg_twentyfive_halves : ⌊(-25/2 : ℚ)⌋ = -13 := by
  rw [Int.floor_eq_iff] <;> norm_num

/-- Python rounds -12.5 half-to-even, giving -12. -/
theorem pyRound_neg_twentyfive_halves : pyRound (-25/2 : ℚ) = -12 := by
  have hfr : Int.fract (-25/2 : ℚ) = 1/2 := by
    rw [Int.fract, floor_neg_twentyfive_halves]
    norm_num
  unfold pyRound
  rw [hfr, floor_neg_twentyfive_halves]
  norm_num

/-- C2: for every quality in [0,5] and every starting ease factor at least
1.3, the ease factor produced by `review_card` is at least 1.3. -/
theorem ease_factor_floor (s : CardState) (q : ℤ) (hq0 : 0 ≤ q) (hq5 : q ≤ 5)
    (he : (13 : ℚ)/10 ≤ s.ease_factor) :
    (13 : ℚ)/10 ≤ (review_card s q).ease_factor := by
  unfold review_card
  split_ifs <;> first | exact he | exact le_max_left _ _

/-- Witness for `ease_factor_floor` at quality 0 and ease factor 1.3. -/
theorem ease_factor_floor_witness :
    (13 : ℚ)/10 ≤ (review_card ⟨13/10, 4, 10⟩ 0).ease_factor :=
  ease_factor_floor ⟨13/10, 4, 10⟩ 0 (by decide) (by decide) (by norm_num)

/-- C3: a review with quality below 3 resets repetitions to 0 and the
interval to 1, regardless of the prior state. -/
theorem lapse_resets_progress (s : CardState) (q : ℤ) (hq : q < 3) :
    (review_card s q).repetitions = 0 ∧ (review_card s q).interval = 1 := by
  have h : clampQuality q < 3 := by
    simp only [clampQuality]
    omega
  simp [review_card, h]

/-- Witness for `lapse_resets_progress` at quality 2. -/
theorem lapse_resets_progress_witness :
    (review_card ⟨5/2, 7, 30⟩ 2).repetitions = 0 ∧
      (review_card ⟨5/2, 7, 30⟩ 2).interval = 1 :=
  lapse_resets_progress ⟨5/2, 7, 30⟩ 2 (by decide)

/-- C1 counterexample: the claim says that on a lapse the ease factor is
updated by the SM-2 formula; at quality 0 with prior ease factor 5/2 the
formula gives 17/10, but `review_card` leaves the ease factor at 5/2: the
update is skipped on lapses. -/
theorem lapse_ease_update_counterexample :
    (review_card ⟨5/2, 4, 10⟩ 0).ease_factor = 5/2 ∧
      max ((13 : ℚ)/10)
        ((5 : ℚ)/2 + (1/10 - ((5 - 0 : ℤ) : ℚ) * (8/100 + ((5 - 0 : ℤ) : ℚ) * (2/100))))
        = 17/10 ∧
      ((5 : ℚ)/2) ≠ 17/10 := by
  refine ⟨?_, ?_, by norm_num⟩
  · norm_num [review_card, clampQuality]
  · norm_num

/-- C1 amended: on a lapse (quality < 3) the ease factor is left
unchanged; the ease-factor update step runs only on successful reviews. -/
theorem lapse_ease_unchanged (s : CardState) (q : ℤ) (hq : q < 3) :
    (review_card s q).ease_factor = s.ease_factor := by
  have h : clampQuality q < 3 := by
    simp only [clampQuality]
    omega
  simp [review_card, h]

/-- Witness for `lapse_ease_unchanged` at quality 0. -/
theorem lapse_ease_unchanged_witness :
    (review_card ⟨5/2, 4, 10⟩ 0).ease_factor = (5 : ℚ)/2 :=
  lapse_ease_unchanged ⟨5/2, 4, 10⟩ 0 (by decide)

/-- C4: from repetitions 0 a successful review yields interval 1 and
repetitions 1; from repetitions 1 it yields interval 6 and repetitions 2;
a quality-5 review of a fresh card (ease 2.5, repetitions 0, interval 0)
yields ease factor 2.6, interval 1, repetitions 1. -/
theorem bootstrap_curve (s : CardState) (q : ℤ) (hq : 3 ≤ q) :
    (s.repetitions = 0 →
      (review_card s q).interval = 1 ∧ (review_card s q).repetitions = 1) ∧
    (s.repetitions = 1 →
      (review_card s q).interval = 6 ∧ (review_card s q).repetitions = 2) ∧
    review_card ⟨5/2, 0, 0⟩ 5 = ⟨13/5, 1, 1⟩ := by
  have h : ¬ clampQuality q < 3 := by
    simp only [clampQuality]
    omega
  have h5 : clampQuality 5 = 5 := by
    simp only [clampQuality]
    omega
  refine ⟨fun h0 => ?_, fun h1 => ?_, ?_⟩
  · simp [review_card, h, h0]
  · simp [review_card, h, h1]
  · unfold review_card
    rw [h5]
    norm_num [max_def]

/-- Witness for `bootstrap_curve` at quality 4 from repetitions 1. -/
theorem bootstrap_curve_witness :
    (review_card ⟨5/2, 1, 1⟩ 4).interval = 6 ∧
      (review_card ⟨5/2, 1, 1⟩ 4).repetitions = 2 :=
  ((bootstrap_curve ⟨5/2, 1, 1⟩ 4 (by decide)).2.1) rfl

/-- C5: on a successful review with at least 2 prior repetitions the new
interval is `round(interval * ease)`, replaced by 1 when the rounding
yields 0, and repetitions grows by 1; concretely, from repetitions 2,
interval 6, ease 2.5, quality 4 yields interval 15 and repetitions 3. -/
theorem compounding (s : CardState) (q : ℤ) (hq : 3 ≤ q)
    (hr : 2 ≤ s.repetitions) :
    ((pyRound ((s.interval : ℚ) * s.ease_factor) = 0 →
        (review_card s q).interval = 1) ∧
     (pyRound ((s.interval : ℚ) * s.ease_factor) ≠ 0 →
        (review_card s q).interval = pyRound ((s.interval : ℚ) * s.ease_factor)) ∧
     (review_card s q).repetitions = s.repetitions + 1) ∧
    (review_card ⟨5/2, 2, 6⟩ 4).interval = 15 ∧
      (review_card ⟨5/2, 2, 6⟩ 4).repetitions = 3 := by
  have h : ¬ clampQuality q < 3 := by
    simp only [clampQuality]
    omega
  have h0 : ¬ s.repetitions = 0 := by omega
  have h1 : ¬ s.repetitions = 1 := by omega
  have h4 : ¬ clampQuality 4 < 3 := by
    simp only [clampQuality]
    omega
  refine ⟨⟨fun hz => ?_, fun hz => ?_, ?_⟩, ?_, ?_⟩
  · simp [review_card, h, h0, h1, hz]
  · simp [review_card, h, h0, h1, hz]
  · simp [review_card, h]
  · unfold review_card
    rw [if_neg h4]
    dsimp only
    rw [if_neg (by omega : ¬ (2 : ℤ) = 0), if_neg (by omega : ¬ (2 : ℤ) = 1),
      pyRound_six_times_ease, if_neg (by omega : ¬ (15 : ℤ) = 0)]
  · unfold review_card
    rw [if_neg h4]
    dsimp only
    omega

/-- Witness for `compounding` from repetitions 2, interval 6, ease 2.5 at
quality 4. -/
theorem compounding_witness :
    (review_card ⟨5/2, 2, 6⟩ 4).interval =
        pyRound (((6 : ℤ) : ℚ) * (5/2 : ℚ)) ∧
      (review_card ⟨5/2, 2, 6⟩ 4).repetitions = 2 + 1 :=
  ⟨((compounding ⟨5/2, 2, 6⟩ 4 (by omega) (by dsimp only; omega)).1.2.1)
      (by rw [pyRound_six_times_ease]; omega),
   (compounding ⟨5/2, 2, 6⟩ 4 (by omega) (by dsimp only; omega)).1.2.2⟩

/-- C6: a quality outside [0,5] behaves exactly as the nearest boundary:
the review result equals the result at the clamped quality. -/
theorem quality_clamping (s : CardState) (q : ℤ) (hq : q < 0 ∨ 5 < q) :
    review_card s q = review_card s (clampQuality q) := by
  simp only [review_card, clampQuality_idem]

/-- Witness for `quality_clamping` at quality 7 (clamped to 5). -/
theorem quality_clamping_witness :
    review_card ⟨5/2, 0, 0⟩ 7 = review_card ⟨5/2, 0, 0⟩ (clampQuality 7) :=
  quality_clamping ⟨5/2, 0, 0⟩ 7 (Or.inr (by decide))

/-- C7 counterexample: from the storable state ease 2.5, repetitions 2,
interval -5 (card creation accepts any integer interval), a quality-4
review produces interval -12, which is not a positive integer. -/
theorem interval_positive_counterexample :
    (review_card ⟨5/2, 2, -5⟩ 4).interval = -12 ∧ ¬ (1 : ℤ) ≤ -12 := by
  have h4 : ¬ clampQuality 4 < 3 := by
    simp only [clampQuality]
    omega
  refine ⟨?_, by omega⟩
  unfold review_card
  rw [if_neg h4]
  dsimp only
  rw [if_neg (by omega : ¬ (2 : ℤ) = 0), if_neg (by omega : ¬ (2 : ℤ) = 1),
    show (((-5 : ℤ) : ℚ) * (5/2 : ℚ)) = -25/2 by push_cast; norm_num,
    pyRound_neg_twentyfive_halves, if_neg (by omega : ¬ (-12 : ℤ) = 0)]

/-- C7 amended: for every prior state with nonnegative interval and
nonnegative ease factor, and every integer quality, the resulting
interval is a positive integer. -/
theorem interval_positive (s : CardState) (q : ℤ) (hi : 0 ≤ s.interval)
    (he : 0 ≤ s.ease_factor) : 1 ≤ (review_card s q).interval := by
  have hprod : (0 : ℚ) ≤ (s.interval : ℚ) * s.ease_factor := by
    have : (0 : ℚ) ≤ (s.interval : ℚ) := by exact_mod_cast hi
    exact mul_nonneg this he
  have hr := pyRound_nonneg _ hprod
  unfold review_card
  split_ifs <;> dsimp only <;> omega

/-- Witness for `interval_positive` on a fresh card at quality 3. -/
theorem interval_positive_witness :
    (1 : ℤ) ≤ (review_card ⟨5/2, 0, 0⟩ 3).interval :=
  interval_positive ⟨5/2, 0, 0⟩ 3 (by decide) (by norm_num)

/-- C8: under `due_only`, a card is in the listing exactly when it is in
the store and its `next_review` is absent or at most the current time. -/
theorem due_filtering (items : List CardDoc) (c : CardDoc) (now : ℤ) :
    c ∈ list_cards items none true now ↔
      c ∈ items ∧
        (c.next_review = none ∨ ∃ t, c.next_review = some t ∧ t ≤ now) := by
  have hd : isDue c.next_review now = true ↔
      (c.next_review = none ∨ ∃ t, c.next_review = some t ∧ t ≤ now) := by
    cases h : c.next_review with
    | none => simp [isDue]
    | some t => simp [isDue]
  simp only [list_cards, if_pos, List.mem_filter]
  rw [hd]

/-- C9: creating a card whose `deck_id` matches no stored deck returns
the 404 "Deck not found" error and leaves the store unchanged. -/
theorem create_card_not_found (st : StoreState) (card : CardDoc) (newId : ℕ)
    (h : ∀ d ∈ st.decks, d.1 ≠ card.deck_id) :
    create_card st card newId = (st, Except.error (404, "Deck not found")) := by
  unfold create_card
  rw [if_pos]
  simp only [List.length_eq_zero, List.filter_eq_nil_iff]
  intro d hd
  simpa using h d hd

/-- Witness for `create_card_not_found` on an empty store. -/
theorem create_card_not_found_witness :
    create_card ⟨[], []⟩ ⟨3, "f", "b", 5/2, 0, 0, none, none⟩ 1 =
      (⟨[], []⟩, Except.error (404, "Deck not found")) :=
  create_card_not_found ⟨[], []⟩ ⟨3, "f", "b", 5/2, 0, 0, none, none⟩ 1
    (by intro d hd; simp at hd)

/-- C10: a review writes only the five scheduling fields; the card's
`deck_id`, `front` and `back` are unchanged. -/
theorem review_frame (doc : CardDoc) (q now : ℤ) :
    (applyReview doc q now).deck_id = doc.deck_id ∧
      (applyReview doc q now).front = doc.front ∧
      (applyReview doc q now).back = doc.back := by
  refine ⟨rfl, rfl, rfl⟩

end StudyAssistant
